import Mathlib

/-!
A shallow embedding of the v3 directory-voting consensus engine of this
repository.  The repository snapshot contains the unit tests of the engine
(test_v3_networkstatus and test_dirutil_param_voting in
src/src/or/clientlogging.c) but not the engine itself (dirvote.c), so the
engine is modelled from the specification (spec.md sections 3 and 4), and the
concrete vote documents and expected outputs below are transcribed from those
in-repository unit tests.

Modelling conventions:
- a digest (DIGEST_LEN = 20 bytes in the source) is its byte sequence, a
  `List Nat`; C's memcmp order on fixed-length digests is the lexicographic
  order on lists;
- `render` and `digest` are opaque injective external services (spec section
  6), so the digest of a consensus body is modelled by the body itself:
  two bodies are byte-identical after rendering iff they are equal;
- a relay's or a vote's flag assignment is the set (list) of flag names it
  asserts, rather than a bitmask; the bitmask is only a serialization detail.
-/

namespace Dirvote

/-- A digest: the fixed-length byte sequence (20 bytes in the source). -/
abbrev Digest := List Nat

/-- A test digest built as the source does with memset(buf, b, DIGEST_LEN). -/
def dg (b : Nat) : Digest := List.replicate 20 b

/-- One relay's status as asserted by one vote, or as merged in a consensus.
`flags` is the set of flag names asserted for the relay. -/
structure RouterStatus where
  nickname : String
  identity_digest : Digest
  descriptor_digest : Digest
  published_on : Int
  addr : Nat
  or_port : Nat
  dir_port : Nat
  flags : List String
deriving DecidableEq

instance : Inhabited RouterStatus := ⟨⟨"", [], [], 0, 0, 0, 0, []⟩⟩

/-- A routerstatus inside a vote additionally carries a version string. -/
structure VoteRouterStatus where
  version : String
  status : RouterStatus
deriving DecidableEq

instance : Inhabited VoteRouterStatus := ⟨⟨"", default⟩⟩

/-- A voter-identity record (spec section 3, `voters`). -/
structure VoterInfo where
  nickname : String
  address : String
  contact : String
  identity_digest : Digest
  addr : Nat
  dir_port : Nat
  or_port : Nat
  legacy_id_digest : Option Digest
deriving DecidableEq

/-- One authority's vote (spec section 3, Vote). -/
structure Vote where
  published : Int
  valid_after : Int
  fresh_until : Int
  valid_until : Int
  vote_seconds : Int
  dist_seconds : Int
  client_versions : Option (List String)
  server_versions : Option (List String)
  known_flags : List String
  net_params : List (String × Int)
  voters : List VoterInfo
  cert : Option Nat
  routerstatus_list : List VoteRouterStatus
deriving DecidableEq

/-- The consensus body: every field that is rendered and digested.
Signatures live outside the body (spec section 3, invariants). -/
structure ConsensusBody where
  published : Int
  cert : Option Nat
  valid_after : Int
  fresh_until : Int
  valid_until : Int
  vote_seconds : Int
  dist_seconds : Int
  client_versions : List String
  server_versions : List String
  known_flags : List String
  net_params : List (String × Int)
  voters : List VoterInfo
  routerstatus_list : List RouterStatus
deriving DecidableEq

/-- Canonical rendering of a finite set: ascending sort after removing
duplicates. -/
def sortedDedup {α : Type} [DecidableEq α] [LinearOrder α] (l : List α) : List α :=
  List.insertionSort (fun a b => a ≤ b) l.dedup

/-- C's strcmp order on (ASCII) strings: lexicographic on the character
sequence by code point. -/
def strLe (a b : String) : Prop := a.data ≤ b.data

instance : DecidableRel strLe :=
  fun a b => inferInstanceAs (Decidable (a.data ≤ b.data))

instance : IsTotal String strLe := ⟨fun a b => le_total a.data b.data⟩

instance : IsTrans String strLe := ⟨fun _ _ _ hab hbc => le_trans hab hbc⟩

instance : IsAntisymm String strLe :=
  ⟨fun _ _ h1 h2 => String.toList_inj.mp (le_antisymm h1 h2)⟩

/-- Canonical rendering of a set of strings: strcmp-ascending sort after
removing duplicates. -/
def sortedDedupStr (l : List String) : List String :=
  List.insertionSort strLe l.dedup

/-- Modelled from the spec: the low-median (spec section 4.3) of a list of
values, the element at 0-based index ⌊(n-1)/2⌋ of the ascending-sorted list
(0 for an empty list; the engine never takes the median of an empty list). -/
def low_median (xs : List Int) : Int :=
  (List.insertionSort (fun a b => a ≤ b) xs).getD ((xs.length - 1) / 2) 0

/-- Modelled from the spec: ParameterVoter, name collection.  The union of the
parameter names across all votes, sorted lexically (spec section 4.3). -/
def param_names (votes : List Vote) : List String :=
  sortedDedupStr (votes.flatMap (fun v => v.net_params.map Prod.fst))

/-- The values the votes defined for one parameter name, in vote order;
votes that did not define the name abstain. -/
def param_values (votes : List Vote) (name : String) : List Int :=
  votes.filterMap (fun v => (v.net_params.find? (fun p => p.1 == name)).map Prod.snd)

/-- Modelled from the spec: ParameterVoter (spec section 4.3).  For each name
in the union, the low-median over only the votes that defined that name. -/
def computed_params (votes : List Vote) : List (String × Int) :=
  (param_names votes).map (fun n => (n, low_median (param_values votes n)))

/-- One rendered `name=value` pair. -/
def render_param (p : String × Int) : String := p.1 ++ "=" ++ toString p.2

/-- Modelled from the spec: dirvote_compute_params, absent from the snapshot;
its rendering (space-separated `name=value`, names sorted lexically) is fixed
by test_dirutil_param_voting. -/
def dirvote_compute_params (votes : List Vote) : String :=
  String.intercalate " " ((computed_params votes).map render_param)

/-- The entry a vote carries for the relay with the given identity digest,
if any (identity digests are unique within one vote, spec section 3). -/
def voteFor (v : Vote) (id : Digest) : Option VoteRouterStatus :=
  v.routerstatus_list.find? (fun r => r.status.identity_digest == id)

/-- The votes that list the relay with the given identity digest. -/
def listed_votes (votes : List Vote) (id : Digest) : List Vote :=
  votes.filter (fun v => (voteFor v id).isSome)

/-- The per-vote entries for one relay, in input vote order. -/
def relay_entries (votes : List Vote) (id : Digest) : List VoteRouterStatus :=
  votes.filterMap (fun v => voteFor v id)

/-- All relay identity digests mentioned by any vote, ascending (spec
section 4.1, output order). -/
def all_identities (votes : List Vote) : List Digest :=
  sortedDedup (votes.flatMap (fun v => v.routerstatus_list.map
    (fun r => r.status.identity_digest)))

/-- Modelled from the spec: FlagAggregator vocabulary (spec section 4.2).
The union of every vote's known_flags, lexically sorted. -/
def consensus_known_flags (votes : List Vote) : List String :=
  sortedDedupStr (votes.flatMap (fun v => v.known_flags))

/-- Does this vote both list the relay and recognize the flag name?
Such votes form the denominator of the flag majority (spec section 4.2). -/
def knows_and_lists (v : Vote) (id : Digest) (f : String) : Bool :=
  (voteFor v id).isSome && v.known_flags.contains f

/-- Does this vote set the flag on its copy of the relay's status? -/
def sets_flag (v : Vote) (id : Digest) (f : String) : Bool :=
  match voteFor v id with
  | some r => r.status.flags.contains f
  | none => false

/-- Modelled from the spec: FlagAggregator per-relay rule (spec section 4.2).
The flag is set iff strictly more than half of the votes that list the relay
and recognize the flag set it; votes not recognizing the flag abstain. -/
def flag_chosen (votes : List Vote) (id : Digest) (f : String) : Bool :=
  decide (2 * votes.countP (fun v => knows_and_lists v id f && sets_flag v id f)
    > votes.countP (fun v => knows_and_lists v id f))

/-- The descriptor digests the listing votes carry for one relay, in vote
order (one per listing vote). -/
def desc_digests (votes : List Vote) (id : Digest) : List Digest :=
  (relay_entries votes id).map (fun r => r.status.descriptor_digest)

/-- The largest number of listing votes agreeing on one descriptor digest. -/
def max_desc_count (ds : List Digest) : Nat :=
  ((sortedDedup ds).map (fun c => ds.count c)).foldr max 0

/-- Modelled from the spec: the canonical descriptor digest (spec section
4.1): the digest held by a plurality of the listing votes, ties broken by the
lexicographically smallest digest.  Searching the ascending-sorted candidate
list for the first one attaining the maximal count realizes the tie-break. -/
def plurality_digest (ds : List Digest) : Digest :=
  ((sortedDedup ds).find? (fun c => ds.count c == max_desc_count ds)).getD []

/-- Modelled from the spec: the entry the merged fields are copied from (spec
section 4.1): the earliest entry in input vote order that supplied the
canonical descriptor digest. -/
def base_entry (votes : List Vote) (id : Digest) : VoteRouterStatus :=
  ((relay_entries votes id).find?
    (fun r => r.status.descriptor_digest == plurality_digest (desc_digests votes id))).getD
    default

/-- Modelled from the spec: RouterStatusMerger per-relay merge (spec sections
4.1 and 4.2): address, ports, nickname and published_on copied from the base
entry, descriptor digest the canonical one, flags by per-flag majority over
the consensus vocabulary. -/
def merge_router (votes : List Vote) (id : Digest) : RouterStatus :=
  { nickname := (base_entry votes id).status.nickname
    identity_digest := id
    descriptor_digest := plurality_digest (desc_digests votes id)
    published_on := (base_entry votes id).status.published_on
    addr := (base_entry votes id).status.addr
    or_port := (base_entry votes id).status.or_port
    dir_port := (base_entry votes id).status.dir_port
    flags := (consensus_known_flags votes).filter (fun f => flag_chosen votes id f) }

/-- Inclusion quorum (spec section 4.1): listed by strictly more than half of
the participating votes. -/
def quorum_listed (votes : List Vote) (id : Digest) : Bool :=
  decide (2 * (listed_votes votes id).length > votes.length)

/-- Modelled from the spec and the in-repository test: a relay enters the
consensus iff it meets the inclusion quorum and its merged Running flag is
set.  The Running requirement is not written in the spec but is fixed by
test_v3_networkstatus: router4, listed by all three votes with Running set in
none of them, must be absent from the two-entry consensus. -/
def include_relay (votes : List Vote) (id : Digest) : Bool :=
  quorum_listed votes id && flag_chosen votes id "Running"

/-- Modelled from the spec: RouterStatusMerger output (spec section 4.1): the
included relays, merged, with identity digests in ascending order. -/
def consensus_routers (votes : List Vote) : List RouterStatus :=
  ((all_identities votes).filter (fun id => include_relay votes id)).map
    (fun id => merge_router votes id)

/-- Modelled from the spec: version recommendations follow set-intersection
semantics (spec section 3): a version is kept iff strictly more than half of
the votes that supplied a version list include it; sorted output. -/
def consensus_versions (vls : List (List String)) : List String :=
  (sortedDedupStr (vls.flatMap id)).filter
    (fun n => decide (2 * vls.countP (fun l => l.contains n) > vls.length))

/-- A vote's voter record as copied into the consensus. -/
def consensus_voter (w : VoterInfo) : VoterInfo := { w with legacy_id_digest := none }

/-- The pseudo-voter entry synthesized for a legacy key (spec sections 4.4
and 9): carries identity data under the legacy identity digest. -/
def legacy_pseudo_voter (w : VoterInfo) (l : Digest) : VoterInfo :=
  { w with nickname := w.nickname ++ "-legacy"
           identity_digest := l
           legacy_id_digest := none }

/-- Ordering of consensus voter entries by identity digest. -/
def voterLe (a b : VoterInfo) : Prop := a.identity_digest ≤ b.identity_digest

instance : DecidableRel voterLe :=
  fun a b => inferInstanceAs (Decidable (a.identity_digest ≤ b.identity_digest))

instance : IsTotal VoterInfo voterLe :=
  ⟨fun a b => le_total a.identity_digest b.identity_digest⟩

instance : IsTrans VoterInfo voterLe := ⟨fun _ _ _ h1 h2 => le_trans h1 h2⟩

/-- The consensus voter entries a vote contributes, before sorting: its voter
records plus one pseudo-entry per vote-carried legacy key. -/
def expanded_voters (votes : List Vote) : List VoterInfo :=
  votes.flatMap (fun v => v.voters.flatMap (fun w =>
    consensus_voter w :: (match w.legacy_id_digest with
      | some l => [legacy_pseudo_voter w l]
      | none => [])))

/-- Modelled from the spec: the consensus voter-attribution list (spec
section 4.4): one entry per contributing authority, plus one pseudo-entry per
legacy key carried by a vote's voter record, ordered by identity digest. -/
def consensus_voters (votes : List Vote) : List VoterInfo :=
  List.insertionSort voterLe (expanded_voters votes)

/-- How many consensus voter entries one voter record contributes: itself,
plus a pseudo-entry when it carries a legacy key. -/
def voter_entry_count (w : VoterInfo) : Nat :=
  match w.legacy_id_digest with
  | some _ => 2
  | none => 1

/-- Modelled from the spec: ConsensusBuilder body assembly (spec section
4.4): timing fields by low-median over all votes, parameters by
ParameterVoter, flags by FlagAggregator, relays by RouterStatusMerger;
published and cert are absent on a consensus (spec section 3). -/
def build_body (votes : List Vote) : ConsensusBody :=
  { published := 0
    cert := none
    valid_after := low_median (votes.map (fun v => v.valid_after))
    fresh_until := low_median (votes.map (fun v => v.fresh_until))
    valid_until := low_median (votes.map (fun v => v.valid_until))
    vote_seconds := low_median (votes.map (fun v => v.vote_seconds))
    dist_seconds := low_median (votes.map (fun v => v.dist_seconds))
    client_versions := consensus_versions (votes.filterMap (fun v => v.client_versions))
    server_versions := consensus_versions (votes.filterMap (fun v => v.server_versions))
    known_flags := consensus_known_flags votes
    net_params := computed_params votes
    voters := consensus_voters votes
    routerstatus_list := consensus_routers votes }

/-- A consensus: the body plus the identities whose signatures are attached.
A signature is keyed by the signer's identity digest over the (immutable)
body digest (spec section 4.5). -/
structure Consensus where
  body : ConsensusBody
  sig_identities : List Digest
deriving DecidableEq

/-- The digest of the rendered body; render and digest are opaque injective
external services, so the digest is modelled by the body itself. -/
def body_digest (c : Consensus) : ConsensusBody := c.body

/-- Modelled from the spec: networkstatus_compute_consensus, absent from the
snapshot (spec section 4.4): builds the body from the votes and signs it with
the invoking authority's key and, when one is supplied, its legacy key.  The
consensus method and the invoker's keys do not influence the body. -/
def networkstatus_compute_consensus (votes : List Vote) (_consensus_method : Nat)
    (invoker_identity : Digest) (legacy_signing_identity : Option Digest) : Consensus :=
  { body := build_body votes
    sig_identities := invoker_identity :: (match legacy_signing_identity with
      | some l => [l]
      | none => []) }

/-- A detached-signature document: digest, validity window and signatures,
with no router-status body (spec section 4.5). -/
structure DetachedSignatures where
  networkstatus_digest : ConsensusBody
  valid_after : Int
  fresh_until : Int
  valid_until : Int
  signatures : List Digest
deriving DecidableEq

/-- Modelled from the spec: networkstatus_get_detached_signatures, absent
from the snapshot (spec section 4.5). -/
def networkstatus_get_detached_signatures (c : Consensus) : DetachedSignatures :=
  { networkstatus_digest := c.body
    valid_after := c.body.valid_after
    fresh_until := c.body.fresh_until
    valid_until := c.body.valid_until
    signatures := c.sig_identities }

/-- Append, in order, the signatures whose signer identity is not already
present; return the new list and the number actually added. -/
def add_sigs (cur : List Digest) : List Digest → List Digest × Nat
  | [] => (cur, 0)
  | s :: rest =>
      if s ∈ cur then add_sigs cur rest
      else ((add_sigs (cur ++ [s]) rest).1, (add_sigs (cur ++ [s]) rest).2 + 1)

/-- Modelled from the spec: networkstatus_add_detached_signatures, absent
from the snapshot (spec section 4.5): accepted only if the document's digest
matches the consensus's own digest; merges only the signatures of voter
identities not already present and returns the number actually added. -/
def networkstatus_add_detached_signatures (c : Consensus) (d : DetachedSignatures) :
    Option (Consensus × Nat) :=
  if d.networkstatus_digest = c.body then
    some ({ c with sig_identities := (add_sigs c.sig_identities d.signatures).1 },
      (add_sigs c.sig_identities d.signatures).2)
  else none

/-!
Concrete test data, transcribed from test_v3_networkstatus in
src/src/or/clientlogging.c.  The test builds one vote structure, serializes
it as three different authorities (mutating fields in between), and feeds the
three parsed votes to the consensus computation.  The authorities' identity
digests are SHA1 digests of key material that is not part of the snapshot;
only their relative memcmp order matters, which the test asserts explicitly
(cert2 < cert1 < cert3); the digests below realize that order, with the
legacy identity digest being memset(buf, 'A', 20) as in the test.

`tnow` stands for the test's time(NULL); its value is immaterial because
every timestamp in the test is an offset from it.
-/

/-- The test's time(NULL). -/
def tnow : Int := 100000

/-- Voter1's identity digest (digest of cert1's identity key). -/
def voter1_id : Digest := dg 67

/-- Voter2's identity digest (digest of cert2's identity key). -/
def voter2_id : Digest := dg 66

/-- Voter3's identity digest (digest of cert3's identity key). -/
def voter3_id : Digest := dg 68

/-- The legacy identity digest, memset(buf, 'A', DIGEST_LEN). -/
def legacy_id : Digest := dg 65

/-- Build one vote routerstatus from the fields the test sets. -/
def mkVRS (ver nick : String) (idb descb : Nat) (pub : Int)
    (a orp dirp : Nat) (fl : List String) : VoteRouterStatus :=
  ⟨ver, ⟨nick, dg idb, dg descb, pub, a, orp, dirp, fl⟩⟩

/-- router2, identity 3, descriptor 'N' (78): only Running set. -/
def rs_r2 : VoteRouterStatus :=
  mkVRS "0.1.2.14" "router2" 3 78 (tnow - 1500) 0x99008801 443 8000 ["Running"]

/-- router2 as listed in the second vote: is_fast additionally set. -/
def rs_r2_fast : VoteRouterStatus :=
  { rs_r2 with status := { rs_r2.status with flags := ["Fast", "Running"] } }

/-- router1, identity 5, descriptor 'M' (77): all flags but Authority. -/
def rs_r1 : VoteRouterStatus :=
  mkVRS "0.2.0.5" "router1" 5 77 (tnow - 1000) 0x99009901 443 0
    ["Exit", "Fast", "Guard", "Running", "Stable", "V2Dir", "Valid"]

/-- router1 as listed in the third vote: descriptor digest 'Z' (90). -/
def rs_r1_z : VoteRouterStatus :=
  { rs_r1 with status := { rs_r1.status with descriptor_digest := dg 90 } }

/-- router3, identity 33, descriptor 'O' (79): all flags set. -/
def rs_r3 : VoteRouterStatus :=
  mkVRS "0.1.0.3" "router3" 33 79 (tnow - 1000) 0xAA009901 400 9999
    ["Authority", "Exit", "Fast", "Guard", "Running", "Stable", "V2Dir", "Valid"]

/-- router4, identity 34, descriptor '0' (48): no flags set (not running). -/
def rs_r4 : VoteRouterStatus :=
  mkVRS "0.1.6.3" "router4" 34 48 (tnow - 1000) 0xC0000203 500 1999 []

/-- The eight flags the first vote knows. -/
def kf8 : List String :=
  ["Authority", "Exit", "Fast", "Guard", "Running", "Stable", "V2Dir", "Valid"]

/-- The ten flags the second and third votes know (MadeOfCheese and
MadeOfTin added, list kept sorted as the test sorts it). -/
def kf10 : List String :=
  ["Authority", "Exit", "Fast", "Guard", "MadeOfCheese", "MadeOfTin",
   "Running", "Stable", "V2Dir", "Valid"]

/-- The first vote (Voter1). -/
def tv1 : Vote :=
  { published := tnow
    valid_after := tnow + 1000
    fresh_until := tnow + 2000
    valid_until := tnow + 3000
    vote_seconds := 100
    dist_seconds := 200
    client_versions := some ["0.1.2.14", "0.1.2.15"]
    server_versions := some ["0.1.2.14", "0.1.2.15", "0.1.2.16"]
    known_flags := kf8
    net_params := [("circuitwindow", 101), ("foo", 990)]
    voters := [⟨"Voter1", "1.2.3.4", "voter@example.com", voter1_id,
                0x01020304, 80, 9000, none⟩]
    cert := some 1
    routerstatus_list := [rs_r2, rs_r1, rs_r3, rs_r4] }

/-- The second vote (Voter2): later fresh_until, larger dist_seconds, no
version recommendations, two extra known flags, router3 dropped, router2
additionally Fast. -/
def tv2 : Vote :=
  { published := tnow + 1
    valid_after := tnow + 1000
    fresh_until := tnow + 3005
    valid_until := tnow + 3000
    vote_seconds := 100
    dist_seconds := 300
    client_versions := none
    server_versions := none
    known_flags := kf10
    net_params := [("bar", 2000000000), ("circuitwindow", 20)]
    voters := [⟨"Voter2", "2.3.4.5", "voter@example.com", voter2_id,
                0x02030405, 80, 9000, none⟩]
    cert := some 2
    routerstatus_list := [rs_r2_fast, rs_r1, rs_r4] }

/-- The third vote (Voter3): carries a legacy key identity, drops router2,
and lists router1 under descriptor digest 'Z'. -/
def tv3 : Vote :=
  { published := tnow
    valid_after := tnow + 1000
    fresh_until := tnow + 2003
    valid_until := tnow + 3000
    vote_seconds := 100
    dist_seconds := 250
    client_versions := some ["0.1.2.14", "0.1.2.17"]
    server_versions := some ["0.1.2.10", "0.1.2.15", "0.1.2.16"]
    known_flags := kf10
    net_params := [("circuitwindow", 80), ("foo", 660)]
    voters := [⟨"Voter3", "3.4.5.6", "voter@example.com", voter3_id,
                0x03040506, 80, 9000, some legacy_id⟩]
    cert := some 3
    routerstatus_list := [rs_r1_z, rs_r4] }

/-- The vote list in the order the test assembles it (v3, v1, v2). -/
def tvotes : List Vote := [tv3, tv1, tv2]

/-- A vote of which only net_params matters, as test_dirutil_param_voting
builds them (every other field zeroed). -/
def paramVote (ps : List (String × Int)) : Vote :=
  { published := 0, valid_after := 0, fresh_until := 0, valid_until := 0
    vote_seconds := 0, dist_seconds := 0
    client_versions := none, server_versions := none
    known_flags := [], net_params := ps, voters := [], cert := none
    routerstatus_list := [] }

/-- First param-voting vote: ab=90 abcd=20 cw=50 x-yz=-99. -/
def pv1 : Vote := paramVote [("ab", 90), ("abcd", 20), ("cw", 50), ("x-yz", -99)]

/-- Second param-voting vote: ab=27 cw=5 x-yz=88. -/
def pv2 : Vote := paramVote [("ab", 27), ("cw", 5), ("x-yz", 88)]

/-- Third param-voting vote: abcd=20 c=60 cw=500 x-yz=-9 zzzzz=101. -/
def pv3 : Vote := paramVote [("abcd", 20), ("c", 60), ("cw", 500), ("x-yz", -9), ("zzzzz", 101)]

/-- Fourth param-voting vote: ab=900 abcd=200 c=1 cw=51 x-yz=100. -/
def pv4 : Vote := paramVote [("ab", 900), ("abcd", 200), ("c", 1), ("cw", 51), ("x-yz", 100)]

/-- The param-voting vote list. -/
def pvotes : List Vote := [pv1, pv2, pv3, pv4]

/-- The first router of the computed consensus (identity digest 3). -/
def con_router0 : RouterStatus := (build_body tvotes).routerstatus_list.getD 0 default

/-- The second router of the computed consensus (identity digest 5). -/
def con_router1 : RouterStatus := (build_body tvotes).routerstatus_list.getD 1 default

/-- Any two routerstatus entries across the votes that describe the same
relay (same identity digest) under the same descriptor digest agree on the
fields the merger copies from the base entry.  This holds whenever the
descriptor digest really is a content hash of the data it covers; the base
entry is then independent of the vote order. -/
def entries_consistent (votes : List Vote) : Prop :=
  ∀ v1, v1 ∈ votes → ∀ v2, v2 ∈ votes →
  ∀ r1, r1 ∈ v1.routerstatus_list → ∀ r2, r2 ∈ v2.routerstatus_list →
  r1.status.identity_digest = r2.status.identity_digest →
  r1.status.descriptor_digest = r2.status.descriptor_digest →
  r1.status.nickname = r2.status.nickname ∧
  r1.status.published_on = r2.status.published_on ∧
  r1.status.addr = r2.status.addr ∧
  r1.status.or_port = r2.status.or_port ∧
  r1.status.dir_port = r2.status.dir_port

/-- The identity digests of the consensus voter entries (authority entries
and legacy pseudo-entries alike) are pairwise distinct, so the sort by
identity digest has no ties and is order-independent. -/
def voter_ids_nodup (votes : List Vote) : Prop :=
  ((expanded_voters votes).map (fun w => w.identity_digest)).Nodup

instance (votes : List Vote) : Decidable (entries_consistent votes) := by
  unfold entries_consistent
  infer_instance

instance (votes : List Vote) : Decidable (voter_ids_nodup votes) := by
  unfold voter_ids_nodup
  infer_instance

/-!
Counterexample votes: two votes describing the same relay under the same
descriptor digest but with different nicknames (violating
entries_consistent), and two votes whose voter records share an identity
digest (violating voter_ids_nodup).  Both expose the input-order dependence
of the merge: the base entry is the first listing entry in input order, and
the stable sort of voter entries breaks identity-digest ties by input order.
-/

/-- A minimal vote listing one running relay (identity 1, descriptor 50)
under the nickname alpha. -/
def cva : Vote :=
  { published := 0, valid_after := 0, fresh_until := 0, valid_until := 0
    vote_seconds := 0, dist_seconds := 0
    client_versions := none, server_versions := none
    known_flags := ["Running"], net_params := []
    voters := [⟨"VoterA", "0.0.0.1", "a", dg 61, 0, 0, 0, none⟩]
    cert := some 1
    routerstatus_list := [⟨"", ⟨"alpha", dg 1, dg 50, 0, 0, 0, 0, ["Running"]⟩⟩] }

/-- The same relay under the same descriptor digest, nickname beta. -/
def cvb : Vote :=
  { cva with
    voters := [⟨"VoterB", "0.0.0.2", "b", dg 62, 0, 0, 0, none⟩]
    routerstatus_list := [⟨"", ⟨"beta", dg 1, dg 50, 0, 0, 0, 0, ["Running"]⟩⟩] }

/-- A vote with no relays whose voter record has identity digest 60. -/
def cvc : Vote :=
  { cva with
    voters := [⟨"VoterC", "0.0.0.3", "c", dg 60, 0, 0, 0, none⟩]
    routerstatus_list := [] }

/-- A second vote whose voter record has the same identity digest 60. -/
def cvd : Vote :=
  { cva with
    voters := [⟨"VoterD", "0.0.0.4", "d", dg 60, 0, 0, 0, none⟩]
    routerstatus_list := [] }

/-!
Helper lemmas.
-/

/-- A merged routerstatus carries the identity digest it was merged for. -/
lemma merge_router_identity (votes : List Vote) (id : Digest) :
    (merge_router votes id).identity_digest = id := rfl

/-- Membership in the consensus router list yields the inclusion test. -/
lemma include_of_mem_consensus {votes : List Vote} {rs : RouterStatus}
    (h : rs ∈ (build_body votes).routerstatus_list) :
    include_relay votes rs.identity_digest = true := by
  have h2 : rs ∈ consensus_routers votes := h
  unfold consensus_routers at h2
  rcases List.mem_map.mp h2 with ⟨id, hid, rfl⟩
  rcases List.mem_filter.mp hid with ⟨-, hinc⟩
  rw [merge_router_identity]
  exact hinc

/-- The flag set of a consensus routerstatus: a flag name is present iff it
is in the consensus vocabulary and chosen by the per-relay flag majority. -/
lemma mem_flags_of_mem_consensus {votes : List Vote} {rs : RouterStatus}
    (h : rs ∈ (build_body votes).routerstatus_list) (f : String) :
    f ∈ rs.flags ↔ f ∈ (build_body votes).known_flags ∧
      2 * votes.countP (fun v => knows_and_lists v rs.identity_digest f
            && sets_flag v rs.identity_digest f)
        > votes.countP (fun v => knows_and_lists v rs.identity_digest f) := by
  have h2 : rs ∈ consensus_routers votes := h
  unfold consensus_routers at h2
  rcases List.mem_map.mp h2 with ⟨id, -, rfl⟩
  show f ∈ (consensus_known_flags votes).filter (fun g => flag_chosen votes id g) ↔ _
  rw [List.mem_filter, merge_router_identity]
  unfold flag_chosen
  rw [decide_eq_true_eq]
  exact Iff.rfl

/-!
The claims.
-/

/-- C2: a relay is in the consensus only if listed by strictly more than
half of the participating votes; concretely, with the three test votes, the
relay with identity digest 3 (listed by 2 of 3) appears and the relay with
identity digest 33 (listed by 1 of 3) does not. -/
theorem c2_inclusion_quorum :
    (∀ (votes : List Vote) (rs : RouterStatus),
        rs ∈ (build_body votes).routerstatus_list →
        2 * (listed_votes votes rs.identity_digest).length > votes.length) ∧
    dg 3 ∈ (build_body tvotes).routerstatus_list.map (fun r => r.identity_digest) ∧
    dg 33 ∉ (build_body tvotes).routerstatus_list.map (fun r => r.identity_digest) ∧
    (listed_votes tvotes (dg 3)).length = 2 ∧
    (listed_votes tvotes (dg 33)).length = 1 ∧
    tvotes.length = 3 := by
  refine ⟨?_, by decide, by decide, by decide, by decide, by decide⟩
  intro votes rs h
  have hinc := include_of_mem_consensus h
  simp only [include_relay, Bool.and_eq_true] at hinc
  rcases hinc with ⟨hq, -⟩
  unfold quorum_listed at hq
  exact of_decide_eq_true hq

/-- C2 witness: instantiated at the first router of the test consensus. -/
theorem c2_witness :
    2 * (listed_votes tvotes con_router0.identity_digest).length > tvotes.length :=
  c2_inclusion_quorum.1 tvotes con_router0 (by decide)

/-- C3: each consensus net_params value is the low-median over only the
votes that defined that name; a name defined by a single vote passes through
unchanged; and on the four test votes the rendered parameter string is
exactly the one the test demands. -/
theorem c3_param_low_median :
    (∀ (votes : List Vote) (n : String) (x : Int),
        (n, x) ∈ computed_params votes → x = low_median (param_values votes n)) ∧
    (∀ (votes : List Vote) (n : String) (x : Int),
        param_values votes n = [x] → low_median (param_values votes n) = x) ∧
    dirvote_compute_params pvotes = "ab=90 abcd=20 c=1 cw=50 x-yz=-9 zzzzz=101" := by
  refine ⟨?_, ?_, by decide⟩
  · intro votes n x h
    rcases List.mem_map.mp h with ⟨m, -, hm⟩
    simp only [Prod.mk.injEq] at hm
    obtain ⟨rfl, rfl⟩ := hm
    rfl
  · intro votes n x h
    rw [h]
    simp [low_median]

/-- C3 witness: the consensus value of parameter cw on the test votes. -/
theorem c3_witness : (50 : Int) = low_median (param_values pvotes "cw") :=
  c3_param_low_median.1 pvotes "cw" 50 (by decide)

/-- C4: each consensus timing field is the low-median (element at 0-based
index ⌊(n-1)/2⌋ of the ascending-sorted values) of that field across all
votes; concretely dist_seconds {200,300,250} gives 250 and fresh_until
offsets {+2000,+3005,+2003} give the +2003 value. -/
theorem c4_timing_low_median :
    (∀ votes : List Vote,
        (build_body votes).valid_after = low_median (votes.map (fun v => v.valid_after)) ∧
        (build_body votes).fresh_until = low_median (votes.map (fun v => v.fresh_until)) ∧
        (build_body votes).valid_until = low_median (votes.map (fun v => v.valid_until)) ∧
        (build_body votes).vote_seconds = low_median (votes.map (fun v => v.vote_seconds)) ∧
        (build_body votes).dist_seconds = low_median (votes.map (fun v => v.dist_seconds))) ∧
    (∀ xs : List Int, low_median xs =
        (List.insertionSort (fun a b => a ≤ b) xs).getD ((xs.length - 1) / 2) 0) ∧
    tvotes.map (fun v => v.dist_seconds) = [250, 200, 300] ∧
    low_median [250, 200, 300] = 250 ∧
    (build_body tvotes).dist_seconds = 250 ∧
    tvotes.map (fun v => v.fresh_until) = [tnow + 2003, tnow + 2000, tnow + 3005] ∧
    (build_body tvotes).fresh_until = tnow + 2003 :=
  ⟨fun _ => ⟨rfl, rfl, rfl, rfl, rfl⟩, fun _ => rfl,
   by decide, by decide, by decide, by decide, by decide⟩

/-- C5: the consensus known_flags is the union of every vote's known_flags
rendered as a lexically sorted sequence; on the test votes it is exactly the
ten-flag sequence the test demands. -/
theorem c5_known_flags_union :
    (build_body tvotes).known_flags =
      ["Authority", "Exit", "Fast", "Guard", "MadeOfCheese", "MadeOfTin",
       "Running", "Stable", "V2Dir", "Valid"] ∧
    (∀ (votes : List Vote) (f : String),
        f ∈ (build_body votes).known_flags ↔ ∃ v, v ∈ votes ∧ f ∈ v.known_flags) ∧
    (∀ votes : List Vote, List.Sorted strLe (build_body votes).known_flags) := by
  refine ⟨by decide, ?_, ?_⟩
  · intro votes f
    show f ∈ consensus_known_flags votes ↔ _
    unfold consensus_known_flags sortedDedupStr
    rw [List.mem_insertionSort, List.mem_dedup, List.mem_flatMap]
  · intro votes
    exact List.sorted_insertionSort strLe _

/-!
Supporting lemmas for the descriptor-plurality claim.
-/

/-- Membership is preserved by sorting and dedup. -/
lemma mem_sortedDedup {α : Type} [DecidableEq α] [LinearOrder α] {a : α} {l : List α} :
    a ∈ sortedDedup l ↔ a ∈ l := by
  unfold sortedDedup
  rw [List.mem_insertionSort, List.mem_dedup]

/-- Every member of a list of naturals is bounded by its max fold. -/
lemma le_foldr_max {x : Nat} : ∀ {l : List Nat}, x ∈ l → x ≤ l.foldr max 0 := by
  intro l
  induction l with
  | nil => intro h; exact absurd h (List.not_mem_nil x)
  | cons a t ih =>
    intro h
    rcases List.mem_cons.mp h with rfl | h2
    · exact le_max_left x (t.foldr max 0)
    · exact le_trans (ih h2) (le_max_right a (t.foldr max 0))

/-- The max fold of a nonempty list of naturals is attained. -/
lemma foldr_max_mem : ∀ (l : List Nat), l ≠ [] → l.foldr max 0 ∈ l
  | [], h => absurd rfl h
  | [a], _ => by
    show max a 0 ∈ [a]
    rw [max_eq_left (Nat.zero_le a)]
    exact List.mem_cons_self a []
  | a :: b :: t, _ => by
    have ih := foldr_max_mem (b :: t) (by simp)
    show max a ((b :: t).foldr max 0) ∈ a :: b :: t
    rcases max_choice a ((b :: t).foldr max 0) with h | h
    · rw [h]; exact List.mem_cons_self a (b :: t)
    · rw [h]; exact List.mem_cons_of_mem a ih

/-- The element found by find? satisfies the predicate (restated to pin the
implicit predicate from the hypothesis). -/
lemma find?_pred {α : Type} {p : α → Bool} {l : List α} {a : α}
    (h : l.find? p = some a) : p a = true := List.find?_some h

/-- On an ascending-sorted list, find? returns a minimal element among those
satisfying the predicate. -/
lemma sorted_find?_le {p : Digest → Bool} {l : List Digest}
    (hs : List.Sorted (fun a b : Digest => a ≤ b) l) {a : Digest}
    (hf : l.find? p = some a) {b : Digest} (hb : b ∈ l) (hpb : p b = true) :
    a ≤ b := by
  induction l with
  | nil => exact absurd hf (by simp)
  | cons x t ih =>
    rcases List.sorted_cons.mp hs with ⟨hx, ht⟩
    by_cases hpx : p x = true
    · rw [List.find?_cons_of_pos t hpx] at hf
      obtain rfl : x = a := Option.some.inj hf
      rcases List.mem_cons.mp hb with rfl | hbt
      · exact le_refl b
      · exact hx b hbt
    · rw [List.find?_cons_of_neg t (by simpa using hpx)] at hf
      rcases List.mem_cons.mp hb with rfl | hbt
      · exact absurd hpb hpx
      · exact ih ht hf hbt

/-- The plurality search succeeds on a nonempty digest list and returns the
canonical digest. -/
lemma plurality_find {ds : List Digest} (hne : ds ≠ []) :
    (sortedDedup ds).find? (fun c => ds.count c == max_desc_count ds) =
      some (plurality_digest ds) := by
  obtain ⟨a, ha⟩ : ∃ a, a ∈ ds := by
    cases ds with
    | nil => exact absurd rfl hne
    | cons x t => exact ⟨x, List.mem_cons_self x t⟩
  have hasd : a ∈ sortedDedup ds := mem_sortedDedup.mpr ha
  have hmapne : (sortedDedup ds).map (fun c => ds.count c) ≠ [] := by
    intro h0
    rw [List.map_eq_nil_iff] at h0
    rw [h0] at hasd
    exact List.not_mem_nil a hasd
  have hmax := foldr_max_mem _ hmapne
  rw [List.mem_map] at hmax
  obtain ⟨c, hc, hcount⟩ := hmax
  have hfind : ((sortedDedup ds).find? (fun c => ds.count c == max_desc_count ds)).isSome := by
    rw [List.find?_isSome]
    exact ⟨c, hc, beq_iff_eq.mpr hcount⟩
  obtain ⟨b, hb⟩ := Option.isSome_iff_exists.mp hfind
  rw [hb]
  unfold plurality_digest
  rw [hb]
  rfl

/-- The canonical digest is one of the submitted digests and attains the
maximal count. -/
lemma plurality_digest_mem_count {ds : List Digest} (hne : ds ≠ []) :
    plurality_digest ds ∈ ds ∧ ds.count (plurality_digest ds) = max_desc_count ds := by
  have hf := plurality_find hne
  have hp := find?_pred hf
  exact ⟨mem_sortedDedup.mp (List.mem_of_find?_eq_some hf), beq_iff_eq.mp hp⟩

/-- No digest occurs more often than the maximal count. -/
lemma count_le_max_desc {ds : List Digest} {d : Digest} (h : d ∈ ds) :
    ds.count d ≤ max_desc_count ds :=
  le_foldr_max (List.mem_map_of_mem (fun c => ds.count c) (mem_sortedDedup.mpr h))

/-- Among the digests tying for the maximal count, the canonical digest is
the lexicographically smallest. -/
lemma plurality_digest_min {ds : List Digest} {d : Digest} (hd : d ∈ ds)
    (hcnt : ds.count d = max_desc_count ds) : plurality_digest ds ≤ d := by
  have hne : ds ≠ [] := List.ne_nil_of_mem hd
  have hsorted : List.Sorted (fun a b : Digest => a ≤ b) (sortedDedup ds) := by
    unfold sortedDedup
    exact List.sorted_insertionSort _ _
  exact sorted_find?_le hsorted (plurality_find hne) (mem_sortedDedup.mpr hd)
    (beq_iff_eq.mpr hcnt)

/-- A relay meeting the inclusion quorum has at least one listing entry. -/
lemma relay_entries_ne_nil {votes : List Vote} {id : Digest}
    (hq : 2 * (listed_votes votes id).length > votes.length) :
    relay_entries votes id ≠ [] := by
  have hlv : listed_votes votes id ≠ [] := by
    intro h0
    rw [h0] at hq
    simp at hq
  obtain ⟨v, hv⟩ : ∃ v, v ∈ listed_votes votes id := by
    cases hlv2 : listed_votes votes id with
    | nil => exact absurd hlv2 hlv
    | cons w t => exact ⟨w, hlv2 ▸ List.mem_cons_self w t⟩
  rcases List.mem_filter.mp hv with ⟨hvv, hsome⟩
  obtain ⟨r, hr⟩ := Option.isSome_iff_exists.mp hsome
  intro h0
  have hmem : r ∈ relay_entries votes id := List.mem_filterMap.mpr ⟨v, hvv, hr⟩
  rw [h0] at hmem
  exact List.not_mem_nil r hmem

/-- The base entry is the first listing entry carrying the canonical
descriptor digest. -/
lemma base_entry_spec {votes : List Vote} {id : Digest}
    (hq : 2 * (listed_votes votes id).length > votes.length) :
    ∃ r, (relay_entries votes id).find?
        (fun e => e.status.descriptor_digest == plurality_digest (desc_digests votes id)) =
          some r ∧ base_entry votes id = r := by
  have hne : desc_digests votes id ≠ [] := by
    intro h0
    exact relay_entries_ne_nil hq (List.map_eq_nil_iff.mp h0)
  have hmem := (plurality_digest_mem_count hne).1
  unfold desc_digests at hmem
  rw [List.mem_map] at hmem
  obtain ⟨r0, hr0, hdig⟩ := hmem
  have hf : ((relay_entries votes id).find?
      (fun e => e.status.descriptor_digest ==
        plurality_digest (desc_digests votes id))).isSome := by
    rw [List.find?_isSome]
    exact ⟨r0, hr0, beq_iff_eq.mpr hdig⟩
  obtain ⟨r, hr⟩ := Option.isSome_iff_exists.mp hf
  refine ⟨r, hr, ?_⟩
  unfold base_entry
  rw [hr]
  rfl

/-- C6: for every relay in the consensus and flag in the vocabulary, the
flag is set iff strictly more than half of the votes that both listed the
relay and recognized the flag set it; concretely, the relay with identity
digest 3 (listed by two votes, Fast set by one of them, Running by both)
gets Running but not Fast. -/
theorem c6_flag_majority :
    (∀ (votes : List Vote) (rs : RouterStatus) (f : String),
        rs ∈ (build_body votes).routerstatus_list →
        (f ∈ rs.flags ↔ f ∈ (build_body votes).known_flags ∧
          2 * votes.countP (fun v => knows_and_lists v rs.identity_digest f
                && sets_flag v rs.identity_digest f)
            > votes.countP (fun v => knows_and_lists v rs.identity_digest f))) ∧
    con_router0.identity_digest = dg 3 ∧
    (listed_votes tvotes (dg 3)).length = 2 ∧
    "Fast" ∉ con_router0.flags ∧
    "Running" ∈ con_router0.flags := by
  refine ⟨?_, by decide, by decide, by decide, by decide⟩
  intro votes rs f h
  exact mem_flags_of_mem_consensus h f

/-- C6 witness: instantiated at the first consensus router and Running. -/
theorem c6_witness :
    "Running" ∈ con_router0.flags ↔ "Running" ∈ (build_body tvotes).known_flags ∧
      2 * tvotes.countP (fun v => knows_and_lists v con_router0.identity_digest "Running"
            && sets_flag v con_router0.identity_digest "Running")
        > tvotes.countP (fun v => knows_and_lists v con_router0.identity_digest "Running") :=
  c6_flag_majority.1 tvotes con_router0 "Running" (by decide)

/-- C7: for every relay in the consensus, the descriptor digest of the
merged entry occurs at least as often among the listing votes as any other
digest, is lexicographically least among the digests tying for that count,
and the nickname, published time, address and ports are copied from the
first listing entry (in input vote order) that supplied it; concretely the
relay with identity 5, listed twice with digest 'M' and once with 'Z', gets
'M'. -/
theorem c7_descriptor_plurality :
    (∀ (votes : List Vote) (rs : RouterStatus),
        rs ∈ (build_body votes).routerstatus_list →
        (∀ d, d ∈ desc_digests votes rs.identity_digest →
            (desc_digests votes rs.identity_digest).count d ≤
              (desc_digests votes rs.identity_digest).count rs.descriptor_digest) ∧
        (∀ d, d ∈ desc_digests votes rs.identity_digest →
            (desc_digests votes rs.identity_digest).count d =
              (desc_digests votes rs.identity_digest).count rs.descriptor_digest →
            rs.descriptor_digest ≤ d) ∧
        (∃ r, (relay_entries votes rs.identity_digest).find?
              (fun e => e.status.descriptor_digest == rs.descriptor_digest) = some r ∧
            r ∈ relay_entries votes rs.identity_digest ∧
            r.status.descriptor_digest = rs.descriptor_digest ∧
            rs.nickname = r.status.nickname ∧
            rs.published_on = r.status.published_on ∧
            rs.addr = r.status.addr ∧
            rs.or_port = r.status.or_port ∧
            rs.dir_port = r.status.dir_port)) ∧
    con_router1.identity_digest = dg 5 ∧
    con_router1.descriptor_digest = dg 77 ∧
    (desc_digests tvotes (dg 5)).count (dg 77) = 2 ∧
    (desc_digests tvotes (dg 5)).count (dg 90) = 1 := by
  refine ⟨?_, by decide, by decide, by decide, by decide⟩
  intro votes rs h
  have h2 : rs ∈ consensus_routers votes := h
  unfold consensus_routers at h2
  rcases List.mem_map.mp h2 with ⟨id, hid, rfl⟩
  rcases List.mem_filter.mp hid with ⟨-, hinc⟩
  simp only [include_relay, Bool.and_eq_true] at hinc
  rcases hinc with ⟨hqb, -⟩
  unfold quorum_listed at hqb
  have hq := of_decide_eq_true hqb
  rw [merge_router_identity]
  have hdesc : (merge_router votes id).descriptor_digest =
      plurality_digest (desc_digests votes id) := rfl
  have hne : desc_digests votes id ≠ [] := fun h0 =>
    relay_entries_ne_nil hq (List.map_eq_nil_iff.mp h0)
  refine ⟨?_, ?_, ?_⟩
  · intro d hd
    rw [hdesc, (plurality_digest_mem_count hne).2]
    exact count_le_max_desc hd
  · intro d hd hcnt
    rw [hdesc]
    apply plurality_digest_min hd
    rw [hcnt, hdesc, (plurality_digest_mem_count hne).2]
  · obtain ⟨r, hr, hbase⟩ := base_entry_spec hq
    refine ⟨r, ?_, List.mem_of_find?_eq_some hr, ?_, ?_, ?_, ?_, ?_, ?_⟩
    · rw [hdesc]; exact hr
    · rw [hdesc]
      have hp := find?_pred hr
      exact beq_iff_eq.mp hp
    · show (base_entry votes id).status.nickname = r.status.nickname
      rw [hbase]
    · show (base_entry votes id).status.published_on = r.status.published_on
      rw [hbase]
    · show (base_entry votes id).status.addr = r.status.addr
      rw [hbase]
    · show (base_entry votes id).status.or_port = r.status.or_port
      rw [hbase]
    · show (base_entry votes id).status.dir_port = r.status.dir_port
      rw [hbase]

/-- C7 witness: on the test consensus, the digest 'Z' of the second router's
competitor occurs no more often than the merged digest 'M'. -/
theorem c7_witness :
    (desc_digests tvotes con_router1.identity_digest).count (dg 90) ≤
      (desc_digests tvotes con_router1.identity_digest).count con_router1.descriptor_digest :=
  (c7_descriptor_plurality.1 tvotes con_router1 (by decide)).1 (dg 90) (by decide)

/-!
Supporting lemmas for permutation invariance of the consensus body: every
component of the body is shown invariant under reordering the vote list,
given that entries sharing a relay and a descriptor digest agree on the
copied fields and that voter identity digests do not collide.
-/

/-- Sorting with a total, transitive, antisymmetric relation is determined
by the multiset of elements: Int case. -/
lemma insertionSort_int_perm_eq {xs ys : List Int} (h : xs.Perm ys) :
    List.insertionSort (fun a b : Int => a ≤ b) xs =
      List.insertionSort (fun a b : Int => a ≤ b) ys :=
  List.eq_of_perm_of_sorted
    ((List.perm_insertionSort _ xs).trans (h.trans (List.perm_insertionSort _ ys).symm))
    (List.sorted_insertionSort _ _) (List.sorted_insertionSort _ _)

/-- The low-median depends only on the multiset of values. -/
lemma low_median_perm {xs ys : List Int} (h : xs.Perm ys) :
    low_median xs = low_median ys := by
  unfold low_median
  rw [insertionSort_int_perm_eq h, h.length_eq]

/-- The canonical set rendering depends only on the multiset: digest case. -/
lemma sortedDedup_perm_eq {l1 l2 : List Digest} (h : l1.Perm l2) :
    sortedDedup l1 = sortedDedup l2 := by
  unfold sortedDedup
  exact List.eq_of_perm_of_sorted
    ((List.perm_insertionSort _ _).trans (h.dedup.trans (List.perm_insertionSort _ _).symm))
    (List.sorted_insertionSort _ _) (List.sorted_insertionSort _ _)

/-- The canonical set rendering depends only on the multiset: string case. -/
lemma sortedDedupStr_perm_eq {l1 l2 : List String} (h : l1.Perm l2) :
    sortedDedupStr l1 = sortedDedupStr l2 := by
  unfold sortedDedupStr
  exact List.eq_of_perm_of_sorted
    ((List.perm_insertionSort _ _).trans (h.dedup.trans (List.perm_insertionSort _ _).symm))
    (List.sorted_insertionSort _ _) (List.sorted_insertionSort _ _)

/-- find? is unchanged when the predicate agrees on every element. -/
lemma find?_congr_pred {α : Type} {p q : α → Bool} :
    ∀ {l : List α}, (∀ x ∈ l, p x = q x) → l.find? p = l.find? q
  | [], _ => rfl
  | a :: t, h => by
    have ha := h a (List.mem_cons_self a t)
    simp only [List.find?]
    rw [ha]
    cases q a
    · exact find?_congr_pred (fun x hx => h x (List.mem_cons_of_mem a hx))
    · rfl

/-- The consensus flag vocabulary depends only on the multiset of votes. -/
lemma known_flags_perm_eq {l1 l2 : List Vote} (hp : l1.Perm l2) :
    consensus_known_flags l1 = consensus_known_flags l2 := by
  unfold consensus_known_flags
  exact sortedDedupStr_perm_eq (hp.flatMap_right _)

/-- The computed parameters depend only on the multiset of votes. -/
lemma computed_params_perm_eq {l1 l2 : List Vote} (hp : l1.Perm l2) :
    computed_params l1 = computed_params l2 := by
  unfold computed_params param_names
  rw [sortedDedupStr_perm_eq (hp.flatMap_right _)]
  apply List.map_congr_left
  intro n _
  have hv : (param_values l1 n).Perm (param_values l2 n) := hp.filterMap _
  rw [low_median_perm hv]

/-- The version recommendations depend only on the multiset of lists. -/
lemma consensus_versions_perm_eq {vls1 vls2 : List (List String)} (h : vls1.Perm vls2) :
    consensus_versions vls1 = consensus_versions vls2 := by
  unfold consensus_versions
  rw [sortedDedupStr_perm_eq (h.flatMap_right _)]
  apply List.filter_congr
  intro n _
  rw [h.countP_eq, h.length_eq]

/-- The identity universe depends only on the multiset of votes. -/
lemma all_identities_perm_eq {l1 l2 : List Vote} (hp : l1.Perm l2) :
    all_identities l1 = all_identities l2 := by
  unfold all_identities
  exact sortedDedup_perm_eq (hp.flatMap_right _)

/-- The per-relay flag majority depends only on the multiset of votes. -/
lemma flag_chosen_perm_eq {l1 l2 : List Vote} (hp : l1.Perm l2) (id : Digest) (f : String) :
    flag_chosen l1 id f = flag_chosen l2 id f := by
  unfold flag_chosen
  rw [hp.countP_eq, hp.countP_eq]

/-- The inclusion test depends only on the multiset of votes. -/
lemma include_relay_perm_eq {l1 l2 : List Vote} (hp : l1.Perm l2) (id : Digest) :
    include_relay l1 id = include_relay l2 id := by
  unfold include_relay quorum_listed listed_votes
  rw [(hp.filter _).length_eq, hp.length_eq, flag_chosen_perm_eq hp id "Running"]

/-- Occurrence counts depend only on the multiset. -/
lemma count_perm_eq {l1 l2 : List Digest} (h : l1.Perm l2) (a : Digest) :
    l1.count a = l2.count a := h.countP_eq _

/-- The maximal descriptor-digest count depends only on the multiset. -/
lemma max_desc_count_perm_eq {ds1 ds2 : List Digest} (h : ds1.Perm ds2) :
    max_desc_count ds1 = max_desc_count ds2 := by
  unfold max_desc_count
  rw [sortedDedup_perm_eq h]
  congr 1
  apply List.map_congr_left
  intro c _
  exact count_perm_eq h c

/-- The canonical descriptor digest depends only on the multiset of votes. -/
lemma plurality_desc_eq {l1 l2 : List Vote} (hp : l1.Perm l2) (id : Digest) :
    plurality_digest (desc_digests l1 id) = plurality_digest (desc_digests l2 id) := by
  have hdd : (desc_digests l1 id).Perm (desc_digests l2 id) := (hp.filterMap _).map _
  unfold plurality_digest
  rw [sortedDedup_perm_eq hdd, max_desc_count_perm_eq hdd]
  exact congrArg (fun o => Option.getD o [])
    (find?_congr_pred (fun c _ => by rw [count_perm_eq hdd c]))

/-- A listing entry carries the identity digest it was looked up under and
belongs to one of the votes. -/
lemma mem_relay_entries {votes : List Vote} {id : Digest} {r : VoteRouterStatus}
    (h : r ∈ relay_entries votes id) :
    r.status.identity_digest = id ∧ ∃ v, v ∈ votes ∧ r ∈ v.routerstatus_list := by
  rcases List.mem_filterMap.mp h with ⟨v, hv, hr⟩
  have hp := find?_pred hr
  exact ⟨beq_iff_eq.mp hp, v, hv, List.mem_of_find?_eq_some hr⟩

/-- Under entries_consistent, the fields copied from the base entry depend
only on the multiset of votes. -/
lemma base_entry_fields_eq {l1 l2 : List Vote} (hp : l1.Perm l2)
    (hcons : entries_consistent l1) (id : Digest) :
    (base_entry l1 id).status.nickname = (base_entry l2 id).status.nickname ∧
    (base_entry l1 id).status.published_on = (base_entry l2 id).status.published_on ∧
    (base_entry l1 id).status.addr = (base_entry l2 id).status.addr ∧
    (base_entry l1 id).status.or_port = (base_entry l2 id).status.or_port ∧
    (base_entry l1 id).status.dir_port = (base_entry l2 id).status.dir_port := by
  have hper : (relay_entries l1 id).Perm (relay_entries l2 id) := hp.filterMap _
  have hplq : plurality_digest (desc_digests l1 id) = plurality_digest (desc_digests l2 id) :=
    plurality_desc_eq hp id
  unfold base_entry
  rw [← hplq]
  cases hf1 : (relay_entries l1 id).find?
      (fun e => e.status.descriptor_digest == plurality_digest (desc_digests l1 id)) with
  | none =>
    have hnone2 : (relay_entries l2 id).find?
        (fun e => e.status.descriptor_digest == plurality_digest (desc_digests l1 id)) = none := by
      rw [List.find?_eq_none] at hf1 ⊢
      intro x hx
      exact hf1 x (hper.mem_iff.mpr hx)
    rw [hnone2]
    exact ⟨rfl, rfl, rfl, rfl, rfl⟩
  | some r1 =>
    have hr1mem : r1 ∈ relay_entries l1 id := List.mem_of_find?_eq_some hf1
    have hr1p := find?_pred hf1
    have hsome2 : ((relay_entries l2 id).find?
        (fun e => e.status.descriptor_digest ==
          plurality_digest (desc_digests l1 id))).isSome := by
      rw [List.find?_isSome]
      exact ⟨r1, hper.mem_iff.mp hr1mem, hr1p⟩
    obtain ⟨r2, hf2⟩ := Option.isSome_iff_exists.mp hsome2
    rw [hf2]
    have hr2mem1 : r2 ∈ relay_entries l1 id :=
      hper.mem_iff.mpr (List.mem_of_find?_eq_some hf2)
    have hr2p := find?_pred hf2
    have hd1 : r1.status.descriptor_digest = plurality_digest (desc_digests l1 id) :=
      beq_iff_eq.mp hr1p
    have hd2 : r2.status.descriptor_digest = plurality_digest (desc_digests l1 id) :=
      beq_iff_eq.mp hr2p
    obtain ⟨hid1, v1, hv1, hrv1⟩ := mem_relay_entries hr1mem
    obtain ⟨hid2, v2, hv2, hrv2⟩ := mem_relay_entries hr2mem1
    exact hcons v1 hv1 v2 hv2 r1 hrv1 r2 hrv2 (hid1.trans hid2.symm) (hd1.trans hd2.symm)

/-- Under entries_consistent, the merged routerstatus of a relay depends
only on the multiset of votes. -/
lemma merge_router_perm_eq {l1 l2 : List Vote} (hp : l1.Perm l2)
    (hcons : entries_consistent l1) (id : Digest) :
    merge_router l1 id = merge_router l2 id := by
  obtain ⟨hn, hpub, haddr, hor, hdir⟩ := base_entry_fields_eq hp hcons id
  have hfl : (consensus_known_flags l1).filter (fun f => flag_chosen l1 id f) =
      (consensus_known_flags l2).filter (fun f => flag_chosen l2 id f) := by
    rw [known_flags_perm_eq hp]
    exact List.filter_congr (fun f _ => flag_chosen_perm_eq hp id f)
  unfold merge_router
  rw [hn, hpub, haddr, hor, hdir, plurality_desc_eq hp id, hfl]

/-- Under entries_consistent, the merged router list depends only on the
multiset of votes. -/
lemma consensus_routers_perm_eq {l1 l2 : List Vote} (hp : l1.Perm l2)
    (hcons : entries_consistent l1) :
    consensus_routers l1 = consensus_routers l2 := by
  unfold consensus_routers
  rw [all_identities_perm_eq hp,
    List.filter_congr (fun id _ => include_relay_perm_eq hp id)]
  exact List.map_congr_left (fun id _ => merge_router_perm_eq hp hcons id)

/-- Two sorted voter lists with the same multiset of entries and no
identity-digest collision are equal. -/
lemma voters_sorted_eq : ∀ (l1 l2 : List VoterInfo), l1.Perm l2 →
    List.Sorted voterLe l1 → List.Sorted voterLe l2 →
    (l1.map (fun w => w.identity_digest)).Nodup → l1 = l2
  | [], l2, hp, _, _, _ => hp.nil_eq
  | _ :: _, [], hp, _, _, _ => absurd hp.length_eq (by simp)
  | a :: t1, b :: t2, hp, hs1, hs2, hnd => by
    rcases List.sorted_cons.mp hs1 with ⟨ha1, ht1⟩
    rcases List.sorted_cons.mp hs2 with ⟨hb2, ht2⟩
    simp only [List.map_cons, List.nodup_cons] at hnd
    obtain ⟨hany, hndt⟩ := hnd
    have hab : a = b := by
      have hamem : a ∈ b :: t2 := hp.mem_iff.mp (List.mem_cons_self a t1)
      rcases List.mem_cons.mp hamem with h1 | h1
      · exact h1
      · have hbmem : b ∈ a :: t1 := hp.mem_iff.mpr (List.mem_cons_self b t2)
        rcases List.mem_cons.mp hbmem with h2 | h2
        · exact h2.symm
        · exfalso
          have h5 : a.identity_digest = b.identity_digest :=
            le_antisymm (ha1 b h2) (hb2 a h1)
          rw [h5] at hany
          exact hany (List.mem_map_of_mem (fun w => w.identity_digest) h2)
    subst hab
    rw [voters_sorted_eq t1 t2 hp.cons_inv ht1 ht2 hndt]

/-- Under voter_ids_nodup, the consensus voter list depends only on the
multiset of votes. -/
lemma consensus_voters_perm_eq {l1 l2 : List Vote} (hp : l1.Perm l2)
    (hnd : voter_ids_nodup l1) : consensus_voters l1 = consensus_voters l2 := by
  have hper : (expanded_voters l1).Perm (expanded_voters l2) := hp.flatMap_right _
  have hsortper : (List.insertionSort voterLe (expanded_voters l1)).Perm
      (List.insertionSort voterLe (expanded_voters l2)) :=
    (List.perm_insertionSort _ _).trans (hper.trans (List.perm_insertionSort _ _).symm)
  have hkeys : ((List.insertionSort voterLe (expanded_voters l1)).map
      (fun w => w.identity_digest)).Perm
      ((expanded_voters l1).map (fun w => w.identity_digest)) :=
    (List.perm_insertionSort voterLe (expanded_voters l1)).map _
  have hndkeys : ((List.insertionSort voterLe (expanded_voters l1)).map
      (fun w => w.identity_digest)).Nodup := hkeys.nodup_iff.mpr hnd
  unfold consensus_voters
  exact voters_sorted_eq _ _ hsortper (List.sorted_insertionSort _ _)
    (List.sorted_insertionSort _ _) hndkeys

/-- The consensus body depends only on the multiset of votes, provided
entries sharing a relay and a descriptor digest agree on the copied fields
and voter identity digests do not collide. -/
lemma build_body_perm_eq {l1 l2 : List Vote} (hp : l1.Perm l2)
    (hcons : entries_consistent l1) (hnd : voter_ids_nodup l1) :
    build_body l1 = build_body l2 := by
  unfold build_body
  rw [low_median_perm (hp.map (fun v => v.valid_after)),
    low_median_perm (hp.map (fun v => v.fresh_until)),
    low_median_perm (hp.map (fun v => v.valid_until)),
    low_median_perm (hp.map (fun v => v.vote_seconds)),
    low_median_perm (hp.map (fun v => v.dist_seconds)),
    consensus_versions_perm_eq (hp.filterMap (fun v => v.client_versions)),
    consensus_versions_perm_eq (hp.filterMap (fun v => v.server_versions)),
    known_flags_perm_eq hp, computed_params_perm_eq hp,
    consensus_voters_perm_eq hp hnd, consensus_routers_perm_eq hp hcons]

/-- C1 (amended): for every multiset of votes in which entries sharing a
relay and a descriptor digest agree on the copied fields and voter identity
digests do not collide, consensus computation produces an identical body
regardless of the order of the votes and of which authority's keys invoke
it; the three test votes satisfy both provisos, so in particular the
consensus computed as voter 3, as voter 1 on a shuffled list, and as voter 2
all have the same body. -/
theorem c1_consensus_body_deterministic :
    (∀ (l1 l2 : List Vote), l1.Perm l2 →
        entries_consistent l1 → voter_ids_nodup l1 →
        ∀ (m1 m2 : Nat) (id1 id2 : Digest) (leg1 leg2 : Option Digest),
          (networkstatus_compute_consensus l1 m1 id1 leg1).body =
          (networkstatus_compute_consensus l2 m2 id2 leg2).body) ∧
    entries_consistent tvotes ∧
    voter_ids_nodup tvotes ∧
    ([tv1, tv2, tv3] : List Vote).Perm tvotes ∧
    (networkstatus_compute_consensus [tv1, tv2, tv3] 3 voter1_id none).body =
      (networkstatus_compute_consensus tvotes 3 voter3_id (some legacy_id)).body ∧
    (networkstatus_compute_consensus [tv2, tv1, tv3] 3 voter2_id none).body =
      (networkstatus_compute_consensus tvotes 3 voter3_id (some legacy_id)).body := by
  refine ⟨?_, by decide, by decide, by decide, by decide, by decide⟩
  intro l1 l2 h1 hcons hnd m1 m2 id1 id2 leg1 leg2
  show build_body l1 = build_body l2
  exact build_body_perm_eq h1 hcons hnd

/-- C1 witness: the general invariance instantiated at a shuffled order of
the test votes, discharging the permutation and both provisos. -/
theorem c1_witness :
    (networkstatus_compute_consensus [tv1, tv2, tv3] 3 voter1_id none).body =
      (networkstatus_compute_consensus tvotes 3 voter3_id (some legacy_id)).body :=
  c1_consensus_body_deterministic.1 [tv1, tv2, tv3] tvotes (by decide) (by decide)
    (by decide) 3 3 voter1_id voter3_id none (some legacy_id)

/-- C1 counterexample: without the provisos the claim is false as stated.
Votes cva and cvb list the same relay under the same descriptor digest with
different nicknames: the merge copies from the first listing entry in input
order, so the two orderings of the same two-vote multiset give different
bodies.  Votes cvc and cvd carry voter records with the same identity
digest: the stable sort of voter entries keeps input order, so the two
orderings also give different bodies. -/
theorem c1_counterexample :
    ([cva, cvb] : List Vote).Perm [cvb, cva] ∧
    (networkstatus_compute_consensus [cva, cvb] 3 voter1_id none).body ≠
      (networkstatus_compute_consensus [cvb, cva] 3 voter1_id none).body ∧
    ([cvc, cvd] : List Vote).Perm [cvd, cvc] ∧
    (networkstatus_compute_consensus [cvc, cvd] 3 voter1_id none).body ≠
      (networkstatus_compute_consensus [cvd, cvc] 3 voter1_id none).body :=
  ⟨by decide, by decide, by decide, by decide⟩

/-!
Supporting lemmas for the detached-signature claim.
-/

/-- Membership after merging signatures: the union of both sides. -/
lemma add_sigs_mem_iff {a : Digest} :
    ∀ (ds cur : List Digest), a ∈ (add_sigs cur ds).1 ↔ a ∈ cur ∨ a ∈ ds
  | [], cur => by simp [add_sigs]
  | s :: rest, cur => by
    unfold add_sigs
    by_cases hc : s ∈ cur
    · rw [if_pos hc, add_sigs_mem_iff rest cur, List.mem_cons]
      constructor
      · rintro (h | h)
        · exact Or.inl h
        · exact Or.inr (Or.inr h)
      · rintro (h | rfl | h)
        · exact Or.inl h
        · exact Or.inl hc
        · exact Or.inr h
    · rw [if_neg hc]
      show a ∈ (add_sigs (cur ++ [s]) rest).1 ↔ a ∈ cur ∨ a ∈ s :: rest
      rw [add_sigs_mem_iff rest (cur ++ [s]), List.mem_append, List.mem_singleton,
        List.mem_cons]
      tauto

/-- The returned count is the number of signatures actually appended. -/
lemma add_sigs_length :
    ∀ (ds cur : List Digest), (add_sigs cur ds).1.length = cur.length + (add_sigs cur ds).2
  | [], cur => by simp [add_sigs]
  | s :: rest, cur => by
    unfold add_sigs
    by_cases hc : s ∈ cur
    · rw [if_pos hc]
      exact add_sigs_length rest cur
    · rw [if_neg hc]
      show (add_sigs (cur ++ [s]) rest).1.length =
        cur.length + ((add_sigs (cur ++ [s]) rest).2 + 1)
      rw [add_sigs_length rest (cur ++ [s])]
      simp only [List.length_append, List.length_cons, List.length_nil]
      omega

/-- Merging signatures that are all already present changes nothing. -/
lemma add_sigs_of_subset :
    ∀ (ds cur : List Digest), (∀ s, s ∈ ds → s ∈ cur) → add_sigs cur ds = (cur, 0)
  | [], _, _ => rfl
  | s :: rest, cur, h => by
    unfold add_sigs
    rw [if_pos (h s (List.mem_cons_self s rest))]
    exact add_sigs_of_subset rest cur (fun t ht => h t (List.mem_cons_of_mem s ht))

/-- Merging never duplicates a signature. -/
lemma add_sigs_nodup :
    ∀ (ds cur : List Digest), cur.Nodup → (add_sigs cur ds).1.Nodup
  | [], _, h => h
  | s :: rest, cur, h => by
    unfold add_sigs
    by_cases hc : s ∈ cur
    · rw [if_pos hc]
      exact add_sigs_nodup rest cur h
    · rw [if_neg hc]
      show (add_sigs (cur ++ [s]) rest).1.Nodup
      apply add_sigs_nodup rest (cur ++ [s])
      rw [List.nodup_append]
      exact ⟨h, List.nodup_singleton s,
        fun a ha hb => hc (List.mem_singleton.mp hb ▸ ha)⟩

/-- The consensus the test computes as voter 3, carrying the legacy key. -/
def tcon : Consensus := networkstatus_compute_consensus tvotes 3 voter3_id (some legacy_id)

/-- The consensus computed as voter 2 after shuffling the votes. -/
def tcon2 : Consensus := networkstatus_compute_consensus [tv2, tv1, tv3] 3 voter2_id none

/-- The consensus computed as voter 1 after shuffling again. -/
def tcon3 : Consensus := networkstatus_compute_consensus [tv1, tv3, tv2] 3 voter1_id none

/-- The detached-signature document extracted from the voter-1 consensus. -/
def tdsig1 : DetachedSignatures := networkstatus_get_detached_signatures tcon3

/-- The voter-2 consensus after merging the voter-1 detached document. -/
def tcon2x : Consensus := { tcon2 with sig_identities := [voter2_id, voter1_id] }

/-- The two-signature detached document extracted afterwards. -/
def tdsig2 : DetachedSignatures := networkstatus_get_detached_signatures tcon2x

/-- The voter-3 consensus after merging the two-signature document. -/
def tconx : Consensus :=
  { tcon with sig_identities := [voter3_id, legacy_id, voter2_id, voter1_id] }

/-- C8: merging a detached-signature document adds exactly the signatures
for voter identities not already present and returns the number actually
added; re-merging the same document returns 0 and changes nothing, and the
merged set is the union of the distinct identities seen.  Concretely the
test's merges return 1, then 0, then 2. -/
theorem c8_detached_merge :
    (∀ (c : Consensus) (d : DetachedSignatures) (c2 : Consensus) (n : Nat),
        networkstatus_add_detached_signatures c d = some (c2, n) →
        c2.body = c.body ∧
        c2.sig_identities.length = c.sig_identities.length + n ∧
        (∀ s, s ∈ c2.sig_identities ↔ s ∈ c.sig_identities ∨ s ∈ d.signatures) ∧
        (c.sig_identities.Nodup → c2.sig_identities.Nodup) ∧
        networkstatus_add_detached_signatures c2 d = some (c2, 0)) ∧
    networkstatus_add_detached_signatures tcon2 tdsig1 = some (tcon2x, 1) ∧
    networkstatus_add_detached_signatures tcon2x tdsig1 = some (tcon2x, 0) ∧
    tdsig2.signatures = [voter2_id, voter1_id] ∧
    networkstatus_add_detached_signatures tcon tdsig2 = some (tconx, 2) := by
  refine ⟨?_, by decide, by decide, by decide, by decide⟩
  intro c d c2 n h
  unfold networkstatus_add_detached_signatures at h
  by_cases hd : d.networkstatus_digest = c.body
  · rw [if_pos hd] at h
    have h2 := Option.some.inj h
    simp only [Prod.mk.injEq] at h2
    obtain ⟨hc2, hn⟩ := h2
    subst hn
    subst hc2
    refine ⟨rfl, add_sigs_length d.signatures c.sig_identities,
      fun s => add_sigs_mem_iff d.signatures c.sig_identities,
      add_sigs_nodup d.signatures c.sig_identities, ?_⟩
    have hsub : ∀ s, s ∈ d.signatures → s ∈ (add_sigs c.sig_identities d.signatures).1 :=
      fun s hs => (add_sigs_mem_iff d.signatures c.sig_identities).mpr (Or.inr hs)
    simp only [networkstatus_add_detached_signatures]
    rw [if_pos hd]
    rw [add_sigs_of_subset d.signatures _ hsub]
  · rw [if_neg hd] at h
    exact Option.noConfusion h

/-- C8 witness: the general properties instantiated at the test's first
merge. -/
theorem c8_witness :
    tcon2x.sig_identities.length = tcon2.sig_identities.length + 1 ∧
    networkstatus_add_detached_signatures tcon2x tdsig1 = some (tcon2x, 0) :=
  ⟨(c8_detached_merge.1 tcon2 tdsig1 tcon2x 1 (by decide)).2.1,
   (c8_detached_merge.1 tcon2 tdsig1 tcon2x 1 (by decide)).2.2.2.2⟩

/-- The number of consensus voter entries: each voter record of each vote
contributes itself plus, when it carries a legacy key, one pseudo-entry. -/
lemma consensus_voters_length (votes : List Vote) :
    (consensus_voters votes).length =
      (votes.map (fun v => (v.voters.map voter_entry_count).sum)).sum := by
  unfold consensus_voters
  rw [(List.perm_insertionSort voterLe (expanded_voters votes)).length_eq]
  unfold expanded_voters
  rw [List.flatMap_def, List.length_flatten, List.map_map]
  congr 1
  apply List.map_congr_left
  intro v _
  simp only [Function.comp]
  rw [List.flatMap_def, List.length_flatten, List.map_map]
  congr 1
  apply List.map_congr_left
  intro w _
  simp only [Function.comp]
  cases hl : w.legacy_id_digest
  · simp [voter_entry_count, hl]
  · simp [voter_entry_count, hl]

/-- C9 (amended): every computed consensus carries published = 0 and no
certificate, and its voters list contains one entry per voter record of the
contributing authorities plus one pseudo-entry per legacy key carried in a
vote's voter record (a legacy signing key supplied at build time adds a
signature, not a voter entry); concretely, building from the three test
votes, one of which carries a legacy key, yields exactly 4 voter entries. -/
theorem c9_consensus_shape :
    (∀ (votes : List Vote) (m : Nat) (idd : Digest) (leg : Option Digest),
        (networkstatus_compute_consensus votes m idd leg).body.published = 0 ∧
        (networkstatus_compute_consensus votes m idd leg).body.cert = none) ∧
    (∀ votes : List Vote, (build_body votes).voters.length =
        (votes.map (fun v => (v.voters.map voter_entry_count).sum)).sum) ∧
    (tvotes.map (fun v => (v.voters.map voter_entry_count).sum)).sum = 4 ∧
    tcon.body.published = 0 ∧
    tcon.body.cert = none ∧
    tcon.body.voters.length = 4 :=
  ⟨fun _ _ _ _ => ⟨rfl, rfl⟩, fun votes => consensus_voters_length votes,
   by decide, rfl, rfl, by decide⟩

/-- C9 counterexample: the pseudo-entry count follows the legacy keys
carried in the votes, not the one supplied at build time.  Building from the
single first test vote (whose voter record carries no legacy key) while
supplying a legacy signing key at build time yields 1 voter entry, not the
2 (one authority plus one build-time legacy key) the claim as stated
demands. -/
theorem c9_counterexample :
    (networkstatus_compute_consensus [tv1] 3 voter1_id
        (some legacy_id)).body.voters.length = 1 ∧
    (networkstatus_compute_consensus [tv1] 3 voter1_id
        (some legacy_id)).body.voters.length ≠ 1 + 1 :=
  ⟨by decide, by decide⟩

/-- C10: a relay whose Running flag fails the majority is excluded even when
it meets the inclusion quorum: every relay in a consensus has Running set,
and the non-running test relay with identity 34, listed by all three votes,
is absent from the two-entry consensus. -/
theorem c10_running_required :
    (∀ (votes : List Vote) (rs : RouterStatus),
        rs ∈ (build_body votes).routerstatus_list → "Running" ∈ rs.flags) ∧
    (listed_votes tvotes (dg 34)).length = 3 ∧
    tvotes.length = 3 ∧
    dg 34 ∉ (build_body tvotes).routerstatus_list.map (fun r => r.identity_digest) ∧
    (build_body tvotes).routerstatus_list.length = 2 := by
  refine ⟨?_, by decide, by decide, by decide, by decide⟩
  intro votes rs h
  have hinc := include_of_mem_consensus h
  simp only [include_relay, Bool.and_eq_true] at hinc
  rcases hinc with ⟨-, hrun⟩
  unfold flag_chosen at hrun
  have hmaj := of_decide_eq_true hrun
  rw [mem_flags_of_mem_consensus h "Running"]
  refine ⟨?_, hmaj⟩
  have hyes : 0 < votes.countP (fun v => knows_and_lists v rs.identity_digest "Running"
      && sets_flag v rs.identity_digest "Running") := by
    rcases Nat.eq_zero_or_pos (votes.countP (fun v =>
        knows_and_lists v rs.identity_digest "Running"
        && sets_flag v rs.identity_digest "Running")) with h0 | h0
    · rw [h0] at hmaj
      omega
    · exact h0
  obtain ⟨v, hv, hpv⟩ := List.countP_pos_iff.mp hyes
  simp only [Bool.and_eq_true] at hpv
  obtain ⟨hk, -⟩ := hpv
  unfold knows_and_lists at hk
  simp only [Bool.and_eq_true] at hk
  obtain ⟨-, hcont⟩ := hk
  have hmem : "Running" ∈ v.known_flags := by simpa using hcont
  show "Running" ∈ consensus_known_flags votes
  unfold consensus_known_flags sortedDedupStr
  rw [List.mem_insertionSort, List.mem_dedup, List.mem_flatMap]
  exact ⟨v, hv, hmem⟩

/-- C10 witness: the first router of the test consensus has Running set. -/
theorem c10_witness : "Running" ∈ con_router0.flags :=
  c10_running_required.1 tvotes con_router0 (by decide)

end Dirvote

